import Mathlib

/-!
Shallow embedding of the CS174 bouncing-ball game repository:

* the fixed-timestep stepping routine `Simulation.simulate` from
  `examples/collisions-demo.js`, and
* the game logic of the `Inertia_Demo` scene (state fields set up in the
  constructor, `generateWalls`, the per-frame game-logic part of `display`,
  and the control-panel key actions).

Exact rational numbers stand for the decimal literals of the source.  Ball
coordinates and the bounce angle are real numbers, since the bounce arc uses
`Math.sin`/`Math.cos` of the angle accumulator; the game step is written
generically over a linear ordered field together with the constant `pi` and
the two trigonometric functions, and is specialized to `ℝ` with `Real.pi`,
`Real.sin`, `Real.cos` for the program semantics.  JavaScript compares palette
colors with `==` on the color objects, i.e. by object identity; a palette
color is therefore modelled as a natural-number identifier (its allocation
identity), not as an RGBA payload.
-/

namespace CS174

/-! ### Clock / stepper: class `Simulation` in `examples/collisions-demo.js` -/

/-- The stepping state of the `Simulation` class, from its constructor
`Object.assign(this, {time_accumulator: 0, time_scale: 1, t: 0, dt: 1/20,
bodies: [], steps_taken: 0})`.  The `bodies` list takes no part in the
stepping arithmetic and is not modelled. -/
structure SimState where
  time_accumulator : ℚ
  time_scale : ℚ
  t : ℚ
  dt : ℚ
  steps_taken : ℕ
deriving DecidableEq

/-- `Math.sign` on rationals. -/
def sgn (q : ℚ) : ℚ := if 0 < q then 1 else if q < 0 then -1 else 0

/-- The loop `while (Math.abs(this.time_accumulator) >= this.dt)` of
`Simulation.simulate`, whose body runs one fixed step and moves the
accumulator by `Math.sign(frame_time) * dt`.  The source loop terminates only
when that signed decrement actually shrinks `|accumulator|`, i.e. when the
sign is `+1` and the accumulator is nonnegative — the only regime reachable
from the initial state under nonnegative frame times; the guard below
transcribes the loop for that regime (`0 < dt ∧ dt ≤ acc`).  The result is
the final accumulator together with the number of iterations. -/
def simLoop (dt acc : ℚ) : ℚ × ℕ :=
  if h : 0 < dt ∧ dt ≤ acc then
    let r := simLoop dt (acc - dt)
    (r.1, r.2 + 1)
  else (acc, 0)
termination_by (⌊acc / dt⌋).toNat
decreasing_by
  rcases h with ⟨hdt, hle⟩
  have hne : dt ≠ 0 := ne_of_gt hdt
  have h1 : (acc - dt) / dt = acc / dt - 1 := by field_simp
  have h2 : (1 : ℚ) ≤ acc / dt := (one_le_div hdt).mpr hle
  have h3 : (1 : ℤ) ≤ ⌊acc / dt⌋ := by
    exact_mod_cast Int.le_floor.mpr (by exact_mod_cast h2)
  have h4 : ⌊(acc - dt) / dt⌋ = ⌊acc / dt⌋ - 1 := by
    rw [h1]
    exact_mod_cast Int.floor_sub_int (acc / dt) 1
  omega

/-- `Simulation.simulate(frame_time)`: scale the frame time by `time_scale`,
add at most `0.1` of it to the accumulator (`Math.min(frame_time, 0.1)`), run
the fixed-step loop, and accumulate simulation time and the step counter.
(The per-body `advance` calls and the final `blend_state(alpha)` touch only
the bodies, not the stepping state.) -/
def simulate (s : SimState) (frame_time : ℚ) : SimState :=
  let ft := s.time_scale * frame_time
  let r := simLoop s.dt (s.time_accumulator + min ft (1/10))
  { s with time_accumulator := r.1,
           t := s.t + sgn ft * s.dt * r.2,
           steps_taken := s.steps_taken + r.2 }

/-- The stepping state as first constructed. -/
def initSim : SimState := ⟨0, 1, 0, 1/20, 0⟩

/-- Successive calls of `simulate`, one per rendered frame. -/
def runSim : SimState → List ℚ → SimState := List.foldl simulate

/-! ### Game data model: classes `Wall` and `Inertia_Demo`

The game logic is generic over a linear ordered field `α` (the coordinate
type), written `ℝ` in the program semantics.  `pi`, `sinf`, `cosf` stand for
`Math.PI`, `Math.sin`, `Math.cos`. -/

/-- The `Wall` class: `constructor(x, y, z, scale, color, up, low)`.  A color
is the identity of a palette entry (JS compares colors by object identity). -/
structure Wall (α : Type) where
  wallx : α
  wally : α
  wallz : α
  wallscale : α
  wallcolor : ℕ
  up : α
  low : α
deriving DecidableEq

/-- The mutable game fields of `Inertia_Demo`.  The wall arrays hold
`Option (Wall α)`: `new Wall()` (all fields `undefined`, every comparison
against them false) is `none`.  The palette `colors` maps an index to the
identity of the color object currently stored there.  The constant bounds
`rightbound`, `leftbound`, `upperbound`, `bottom` are never mutated and are
modelled as the standalone constants below. -/
structure GameState (α : Type) where
  game_started : Bool
  game_over : Bool
  goRight : Bool
  bounced : Bool
  score : ℕ
  x : α
  y : α
  z : α
  bounce_angle : α
  count : ℕ
  changeDirection : Bool
  colors : ℕ → ℕ
  ballcolor : ℕ
  rightWalls : ℕ → Option (Wall α)
  leftWalls : ℕ → Option (Wall α)

/-- `this.rightbound = 12.8`. -/
def rightbound (α : Type) [LinearOrderedField α] : α := 64/5

/-- `this.leftbound = -12.9`. -/
def leftbound (α : Type) [LinearOrderedField α] : α := -129/10

/-- `this.upperbound = 14.7`. -/
def upperbound (α : Type) [LinearOrderedField α] : α := 147/10

/-- `this.bottom = -14`. -/
def bottom (α : Type) [LinearOrderedField α] : α := -14

/-- The randomness an `Inertia_Demo.display` call may consume: the successive
values of `Math.floor(Math.random() * 3)` drawn by the layout-level loop (as
the raw `Math.random()` results), the fresh color objects allocated by
`color(Math.random(), ...)` for each palette index, and the raw
`Math.random()` used for the ball-color index. -/
structure Rng where
  countDraws : List ℚ
  fresh : ℕ → ℕ
  ballr : ℚ

/-- The span test of the collision chain: `this.y > wall.low && this.y <
wall.up` — strict at both ends.  On a default-constructed wall (`undefined`
bounds) both comparisons are false. -/
def inSpan {α : Type} [LinearOrderedField α] (y : α) : Option (Wall α) → Bool
  | some w => decide (w.low < y) && decide (y < w.up)
  | none => false

/-- The body shared by every arm of the collision chain: on a color match
(`this.ballcolor == wall.wallcolor`) reverse the direction, request a layout
change, and add 1 to the score; otherwise set `game_over`.  (The `none` arm is
unreachable: the chain only calls this under a true `inSpan` guard.) -/
def hitOutcome {α : Type} [LinearOrderedField α] (s : GameState α) :
    Option (Wall α) → GameState α
  | some w =>
      if s.ballcolor = w.wallcolor then
        { s with goRight := !s.goRight, changeDirection := true,
                 score := s.score + 1 }
      else { s with game_over := true }
  | none => s

/-- The if/else-if collision chain of `display`, run against one side's wall
array: walls 0 and 1 are always tested; wall 2 only when `count == 1` or
`count == 2`; wall 3 only when `count == 2` (inside the `count == 2` arm).
The identical chain appears four times in the source (bounce/fall × right
/left); it is transcribed once here. -/
def resolveSide {α : Type} [LinearOrderedField α] (s : GameState α)
    (walls : ℕ → Option (Wall α)) : GameState α :=
  if inSpan s.y (walls 0) then hitOutcome s (walls 0)
  else if inSpan s.y (walls 1) then hitOutcome s (walls 1)
  else if s.count = 1 then
    if inSpan s.y (walls 2) then hitOutcome s (walls 2) else s
  else if s.count = 2 then
    if inSpan s.y (walls 2) then hitOutcome s (walls 2)
    else if inSpan s.y (walls 3) then hitOutcome s (walls 3)
    else s
  else s

/-- The wall segment the collision chain selects for a given vertical
position: the first array entry whose span test succeeds, following exactly
the chain structure of `resolveSide`. -/
def selectSeg {α : Type} [LinearOrderedField α] (count : ℕ) (y : α)
    (walls : ℕ → Option (Wall α)) : Option (Wall α) :=
  if inSpan y (walls 0) then walls 0
  else if inSpan y (walls 1) then walls 1
  else if count = 1 then
    if inSpan y (walls 2) then walls 2 else none
  else if count = 2 then
    if inSpan y (walls 2) then walls 2
    else if inSpan y (walls 3) then walls 3
    else none
  else none

/-- The side-boundary check wrapping the collision chain: right side when
moving right with `x + 1 >= rightbound`, else left side when moving left with
`x - 1 <= leftbound`. -/
def sideCheck {α : Type} [LinearOrderedField α] (s : GameState α) :
    GameState α :=
  if s.goRight ∧ s.x + 1 ≥ rightbound α then resolveSide s s.rightWalls
  else if (!s.goRight) ∧ s.x - 1 ≤ leftbound α then resolveSide s s.leftWalls
  else s

/-- The first half of a bounce-phase step, the opening of the
`if (!this.bounced && !this.game_over)` branch of `display`: advance the
angle by `0.5 * dt * 1.2 * PI`; move `x` by `∓0.05 * cos(angle)` depending on
direction and `y` by `+0.15 * sin(angle)`; then the top/bottom check
(`y + 1 >= upperbound || y <= bottom` sets `game_over`). -/
def bounceMid {α : Type} [LinearOrderedField α] (pi : α) (sinf cosf : α → α)
    (dt : α) (s : GameState α) : GameState α :=
  let a := s.bounce_angle + 1/2 * dt * (6/5) * pi
  let x1 := if s.goRight then s.x - 1/20 * cosf a else s.x + 1/20 * cosf a
  let y1 := s.y + 3/20 * sinf a
  let s1 : GameState α := { s with bounce_angle := a, x := x1, y := y1 }
  if s1.y + 1 ≥ upperbound α ∨ s1.y ≤ bottom α then
    { s1 with game_over := true } else s1

/-- The rest of the bounce-phase step: after the motion and top/bottom check
of `bounceMid`, the side check, the second vertical update
`y += 0.015 * sin(angle)`, and the end-of-arc test against `1.1 * PI`. -/
def bounceStep {α : Type} [LinearOrderedField α] (pi : α) (sinf cosf : α → α)
    (dt : α) (s : GameState α) : GameState α :=
  let a := s.bounce_angle + 1/2 * dt * (6/5) * pi
  let s3 := sideCheck (bounceMid pi sinf cosf dt s)
  let s4 := { s3 with y := s3.y + 3/200 * sinf a }
  if a ≥ 11/10 * pi then { s4 with bounced := true, bounce_angle := 1/2 * pi }
  else s4

/-- One falling-phase step, the `else if (this.game_started &&
!this.game_over)` branch of `display`: the side check, then `y -= 0.2` and
`x ± 0.05` in the (possibly just reversed) current direction. -/
def fallStep {α : Type} [LinearOrderedField α] (s : GameState α) :
    GameState α :=
  let s1 := sideCheck s
  let s2 := { s1 with y := s1.y - 1/5 }
  { s2 with x := if s2.goRight then s2.x + 1/20 else s2.x - 1/20 }

/-- The layout-level loop `while (this.count == prev_c) { this.count =
Math.floor(Math.random() * 3); }`, given the successive raw `Math.random()`
draws.  (With the draws exhausted the source loop would never exit; the value
is then left at `prev`, a case excluded by the theorems' hypotheses.) -/
def pickCount (prev : ℕ) : List ℚ → ℕ
  | [] => prev
  | r :: rs => if (⌊3 * r⌋).toNat = prev then pickCount prev rs
               else (⌊3 * r⌋).toNat

/-- The `if (this.changeDirection)` regeneration block at the end of
`display`: draw a new level different from the current one, allocate fresh
random colors for palette indices `0 .. count+2`, pick the ball's color from
the new palette at index `Math.floor(Math.random() * (count + 2))`, and clear
the flag. -/
def regen {α : Type} [LinearOrderedField α] (s : GameState α) (rng : Rng) :
    GameState α :=
  if s.changeDirection then
    let c := pickCount s.count rng.countDraws
    let cols : ℕ → ℕ := fun i => if i < c + 2 then rng.fresh i else s.colors i
    { s with count := c, colors := cols,
             ballcolor := cols (⌊rng.ballr * (c + 2 : ℚ)⌋).toNat,
             changeDirection := false }
  else s

/-- `generateWalls`: per level (`count` 0, 1 or 2) overwrite the leading wall
array entries with the fixed spans below, coloring them from the current
palette; entries past the level's segment count keep their previous values.
The trailing `this.changeDirection = false` runs on every call. -/
def generateWalls {α : Type} [LinearOrderedField α] (s : GameState α) :
    GameState α :=
  let s' :=
    if s.count = 0 then
      { s with
        rightWalls := fun i =>
          if i = 0 then some ⟨133/10, 15/2, 7, 7, s.colors 0, 27/2,
            4999999999999996/10000000000000000⟩
          else if i = 1 then some ⟨133/10, -7, 7, 15/2, s.colors 1,
            4999999999999996/10000000000000000, -137/10⟩
          else s.rightWalls i,
        leftWalls := fun i =>
          if i = 0 then some ⟨-133/10, 49/5, 7, 24/5, s.colors 1, 27/2, 51/10⟩
          else if i = 1 then some ⟨-133/10, -24/5, 7, 49/5, s.colors 0, 51/10,
            -137/10⟩
          else s.leftWalls i }
    else if s.count = 1 then
      { s with
        rightWalls := fun i =>
          if i = 0 then some ⟨133/10, 21/2, 7, 4, s.colors 0, 27/2, 67/10⟩
          else if i = 1 then some ⟨133/10, 7/2, 7, 3, s.colors 1, 67/10, 1/2⟩
          else if i = 2 then some ⟨133/10, -7, 7, 15/2, s.colors 2, 1/2,
            -137/10⟩
          else s.rightWalls i,
        leftWalls := fun i =>
          if i = 0 then some ⟨-133/10, 19/2, 7, 5, s.colors 2, 27/2, 9/2⟩
          else if i = 1 then some ⟨-133/10, -3/2, 7, 6, s.colors 0, 9/2,
            -77/10⟩
          else if i = 2 then some ⟨-133/10, -11, 7, 7/2, s.colors 1, -77/10,
            -137/10⟩
          else s.leftWalls i }
    else if s.count = 2 then
      { s with
        rightWalls := fun i =>
          if i = 0 then some ⟨133/10, 23/2, 7, 3, s.colors 2, 27/2, 87/10⟩
          else if i = 1 then some ⟨133/10, 9/2, 7, 4, s.colors 1, 87/10, 1/2⟩
          else if i = 2 then some ⟨133/10, -9/2, 7, 5, s.colors 0, 1/2, -99/10⟩
          else if i = 3 then some ⟨133/10, -12, 7, 5/2, s.colors 3, -99/10,
            -137/10⟩
          else s.rightWalls i,
        leftWalls := fun i =>
          if i = 0 then some ⟨-133/10, 25/2, 7, 2, s.colors 1, 27/2, 107/10⟩
          else if i = 1 then some ⟨-133/10, 9/2, 7, 6, s.colors 2, 107/10,
            -17/10⟩
          else if i = 2 then some ⟨-133/10, -4, 7, 5/2, s.colors 3, -17/10,
            -67/10⟩
          else if i = 3 then some ⟨-133/10, -52/5, 7, 39/10, s.colors 0,
            -67/10, -137/10⟩
          else s.leftWalls i }
    else s
  { s' with changeDirection := false }

/-- The game-logic part of one `display(context, program_state)` call: one of
the three phase branches (bounce step / out-of-bounds check / fall step),
then the regeneration block, then `generateWalls`. -/
def displayStep {α : Type} [LinearOrderedField α] (pi : α)
    (sinf cosf : α → α) (s : GameState α) (dt : α) (rng : Rng) : GameState α :=
  let s1 :=
    if (!s.bounced) ∧ (!s.game_over) then bounceStep pi sinf cosf dt s
    else if s.y + 1 ≥ upperbound α ∨ s.y ≤ bottom α then
      { s with game_over := true }
    else if s.game_started ∧ (!s.game_over) then fallStep s
    else s
  generateWalls (regen s1 rng)

/-- The fields as first assigned by the `Inertia_Demo` constructor: palette
entries 0..3 are the objects `white, black, red, blue` (identities `0..3`),
the ball color is palette entry 0, both wall arrays hold `new Wall()`. -/
def initState {α : Type} [LinearOrderedField α] (pi : α) : GameState α :=
  { game_started := false, game_over := false, goRight := true,
    bounced := true, score := 0, x := 0, y := 3, z := 6,
    bounce_angle := 1/2 * pi, count := 0, changeDirection := false,
    colors := fun i => i, ballcolor := 0,
    rightWalls := fun _ => none, leftWalls := fun _ => none }

/-- The `restart` key handler: reset flags, score, position, level, flag,
both wall arrays and set `ballcolor = this.colors[0]`.  It does NOT touch
`bounce_angle` nor the palette `colors`.  (The handler's trailing
`this.display()` call, made without arguments, throws on its first statement
and changes no further state.) -/
def restart {α : Type} [LinearOrderedField α] (s : GameState α) :
    GameState α :=
  { s with game_started := false, game_over := false, goRight := true,
           bounced := true, score := 0, x := 0, y := 3, z := 6, count := 0,
           changeDirection := false,
           rightWalls := fun _ => none, leftWalls := fun _ => none,
           ballcolor := s.colors 0 }

/-- The `start game` key handler. -/
def keyStart {α : Type} [LinearOrderedField α] (s : GameState α) :
    GameState α := { s with game_started := true }

/-- The `make game over` key handler. -/
def keyForceOver {α : Type} [LinearOrderedField α] (s : GameState α) :
    GameState α := { s with game_over := true }

/-- The `bounce the ball` key handler. -/
def keyBounce {α : Type} [LinearOrderedField α] (s : GameState α) :
    GameState α := { s with game_started := true, bounced := false }

/-- A run of successive frames, each with its frame duration and randomness. -/
def runFrames {α : Type} [LinearOrderedField α] (pi : α)
    (sinf cosf : α → α) : GameState α → List (α × Rng) → GameState α :=
  List.foldl (fun s fr => displayStep pi sinf cosf s fr.1 fr.2)

/-- The program semantics of one `display` call: coordinates in `ℝ`, with
`Math.PI`, `Math.sin`, `Math.cos`. -/
noncomputable def displayStepR : GameState ℝ → ℝ → Rng → GameState ℝ :=
  displayStep Real.pi Real.sin Real.cos

/-- The program semantics of a run of `display` calls. -/
noncomputable def runFramesR : GameState ℝ → List (ℝ × Rng) → GameState ℝ :=
  runFrames Real.pi Real.sin Real.cos

/-- The constructed scene state over `ℝ`. -/
noncomputable def initStateR : GameState ℝ := initState Real.pi

/-! ### Concrete states used by witnesses and counterexamples -/

/-- The decimal literal `0.4999999999999996` shared by the two level-0
right-wall spans. -/
def seamQ : ℚ := 4999999999999996/10000000000000000

/-- The state right after `generateWalls` ran at level `c` on the constructed
state (palette identities `0..3`), over `ℚ`. -/
def qLevel (c : ℕ) : GameState ℚ :=
  generateWalls { initState (0 : ℚ) with count := c }

/-- The wall segments of one side in array order (top segment first, i.e.
descending `low`), dropping the `new Wall()` placeholders. -/
def segsOf (walls : ℕ → Option (Wall ℚ)) : List (Wall ℚ) :=
  ([0, 1, 2, 3] : List ℕ).filterMap walls

/-- Adjacent spans meet exactly: in array order (descending), each next
segment's `up` equals the previous segment's `low`. -/
def chainOK : List (Wall ℚ) → Prop
  | a :: b :: rest => b.up = a.low ∧ chainOK (b :: rest)
  | _ => True

/-- `y` lies in the `[low, up)` span of some listed segment. -/
def covered (segs : List (Wall ℚ)) (y : ℚ) : Prop :=
  ∃ w ∈ segs, w.low ≤ y ∧ y < w.up

/-- A right wall whose color matches palette entry 0. -/
def wMatch : Wall ℚ := ⟨133/10, 5, 7, 5, 0, 10, 0⟩

/-- A state about to hit the right boundary inside `wMatch`'s span with the
matching ball color. -/
def c2state : GameState ℚ :=
  { initState (0 : ℚ) with
    game_started := true
    x := 12
    rightWalls := fun i => if i = 0 then some wMatch else none }

/-- The same approach with a mismatched ball color. -/
def c3state : GameState ℚ := { c2state with ballcolor := 1 }

/-- A state about to hit the right boundary exactly at the level-0 seam
`y = 0.4999999999999996`, where neither segment's open span test succeeds. -/
def c6state : GameState ℚ := { qLevel 0 with x := 12, y := seamQ }

/-- The level-0 top right wall as built by `generateWalls` from the initial
palette. -/
def wallR0 : Wall ℚ := ⟨133/10, 15/2, 7, 7, 0, 27/2, seamQ⟩

/-- Randomness that draws nothing: no level draws, identity color allocation,
zero ball draw. -/
def rng0 : Rng := ⟨[], fun i => i, 0⟩

/-- Randomness whose single level draw is `Math.random() = 1/2`, giving level
`⌊3/2⌋ = 1`. -/
def rng1 : Rng := ⟨[1/2], fun i => i, 0⟩

/-- A bouncing state (angle at `π/2`) placed so one bounce step with `dt = 0`
crosses the top boundary (`y` becomes `13.75`, and `13.75 + 1 ≥ 14.7`) and
simultaneously crosses the right boundary (`x = 11.8`, `x + 1 ≥ 12.8`) inside
a matching wall segment. -/
noncomputable def c10state : GameState ℝ :=
  { initStateR with
    game_started := true
    bounced := false
    x := 59/5
    y := 68/5
    bounce_angle := Real.pi/2
    ballcolor := 5
    rightWalls := fun i =>
      if i = 0 then some ⟨133/10, 0, 7, 0, 5, 20, 0⟩ else none }

/-- A reachable state with a mid-arc bounce angle: press `bounce the ball` on
the fresh scene, then run one frame of half a second. -/
noncomputable def c8state : GameState ℝ :=
  displayStepR (keyBounce initStateR) (1/2) rng0

/-- Closed form of the stepping loop on a nonnegative accumulator: it runs
`⌊acc / dt⌋` iterations and leaves `acc - dt * ⌊acc / dt⌋`. -/
lemma simLoop_spec : ∀ (n : ℕ) (dt acc : ℚ), (⌊acc / dt⌋).toNat = n → 0 < dt →
    0 ≤ acc → simLoop dt acc = (acc - dt * ⌊acc / dt⌋, (⌊acc / dt⌋).toNat) := by
  intro n
  induction n using Nat.strong_induction_on with
  | _ n ih =>
    intro dt acc hn hdt hacc
    have hne : dt ≠ 0 := ne_of_gt hdt
    rw [simLoop]
    split_ifs with h
    · have hle := h.2
      have h1 : (acc - dt) / dt = acc / dt - 1 := by field_simp
      have h2 : (1 : ℚ) ≤ acc / dt := (one_le_div hdt).mpr hle
      have h3 : (1 : ℤ) ≤ ⌊acc / dt⌋ := by
        exact_mod_cast Int.le_floor.mpr (by exact_mod_cast h2)
      have h4 : ⌊(acc - dt) / dt⌋ = ⌊acc / dt⌋ - 1 := by
        rw [h1]
        exact_mod_cast Int.floor_sub_int (acc / dt) 1
      have hrec := ih ((⌊(acc - dt) / dt⌋).toNat) (by omega) dt (acc - dt) rfl hdt
        (by nlinarith)
      rw [hrec]
      ext
      · simp only
        rw [h4]
        push_cast [h3]
        ring
      · simp only
        omega
    · push_neg at h
      have hlt : acc < dt := h hdt
      have h0 : ⌊acc / dt⌋ = 0 := by
        rw [Int.floor_eq_zero_iff]
        constructor
        · positivity
        · rw [div_lt_one hdt]
          exact hlt
      rw [h0]
      simp

/-- Invariant carried through a run: `dt` and `time_scale` stay fixed, the
leftover accumulator stays in `[0, dt)`, and `steps * dt + accumulator`
accounts exactly for all clamped frame time received so far. -/
lemma runSim_invariant : ∀ (frames : List ℚ) (s : SimState), s.dt = 1/20 →
    s.time_scale = 1 → 0 ≤ s.time_accumulator → s.time_accumulator < 1/20 →
    (∀ f ∈ frames, 0 ≤ f ∧ f ≤ 1/10) →
    (runSim s frames).dt = 1/20 ∧ (runSim s frames).time_scale = 1 ∧
    0 ≤ (runSim s frames).time_accumulator ∧
    (runSim s frames).time_accumulator < 1/20 ∧
    ((runSim s frames).steps_taken : ℚ) * (1/20) +
        (runSim s frames).time_accumulator =
      (s.steps_taken : ℚ) * (1/20) + s.time_accumulator + frames.sum := by
  intro frames
  induction frames with
  | nil =>
    intro s h1 h2 h3 h4 _
    exact ⟨h1, h2, h3, h4, by simp [runSim]⟩
  | cons f fs ih =>
    intro s h1 h2 h3 h4 hf
    obtain ⟨hf0, hf1⟩ := hf f (List.mem_cons_self f fs)
    have hstep : runSim s (f :: fs) = runSim (simulate s f) fs := rfl
    have haccnn : (0 : ℚ) ≤ s.time_accumulator + f := by positivity
    have hfloor := simLoop_spec (⌊(s.time_accumulator + f) / (1/20 : ℚ)⌋).toNat
      (1/20) (s.time_accumulator + f) rfl (by norm_num) haccnn
    have hL : (0 : ℤ) ≤ ⌊(s.time_accumulator + f) / (1/20 : ℚ)⌋ :=
      Int.floor_nonneg.mpr (by positivity)
    have hsim : simulate s f =
        { s with time_accumulator := s.time_accumulator + f -
                   (1/20) * ⌊(s.time_accumulator + f) / (1/20 : ℚ)⌋,
                 t := s.t + sgn f * (1/20) *
                   ((⌊(s.time_accumulator + f) / (1/20 : ℚ)⌋).toNat : ℚ),
                 steps_taken := s.steps_taken +
                   (⌊(s.time_accumulator + f) / (1/20 : ℚ)⌋).toNat } := by
      simp only [simulate, h1, h2, one_mul]
      rw [min_eq_left hf1, hfloor]
    have hfr : (0 : ℚ) ≤ Int.fract ((s.time_accumulator + f) / (1/20 : ℚ)) :=
      Int.fract_nonneg _
    have hfr' : Int.fract ((s.time_accumulator + f) / (1/20 : ℚ)) < 1 :=
      Int.fract_lt_one _
    have hfract : s.time_accumulator + f -
        (1/20) * ⌊(s.time_accumulator + f) / (1/20 : ℚ)⌋ =
        (1/20) * Int.fract ((s.time_accumulator + f) / (1/20 : ℚ)) := by
      rw [Int.fract]
      ring
    have h3' : 0 ≤ (simulate s f).time_accumulator := by
      rw [hsim]
      simp only
      rw [hfract]
      positivity
    have h4' : (simulate s f).time_accumulator < 1/20 := by
      rw [hsim]
      simp only
      rw [hfract]
      nlinarith
    have h1' : (simulate s f).dt = 1/20 := by rw [hsim]; exact h1
    have h2' : (simulate s f).time_scale = 1 := by rw [hsim]; exact h2
    have := ih (simulate s f) h1' h2' h3' h4'
      (fun g hg => hf g (List.mem_cons_of_mem f hg))
    rw [hstep]
    refine ⟨this.1, this.2.1, this.2.2.1, this.2.2.2.1, ?_⟩
    rw [this.2.2.2.2, hsim]
    simp only [List.sum_cons]
    push_cast
    rw [show (((⌊(s.time_accumulator + f) / (1/20 : ℚ)⌋).toNat : ℕ) : ℚ) =
        ((⌊(s.time_accumulator + f) / (1/20 : ℚ)⌋ : ℤ) : ℚ) from by
      exact_mod_cast Int.toNat_of_nonneg hL]
    ring

/-- C1: for any sequence of nonnegative frame durations, each at most 0.1 s,
fed to successive `Simulation.simulate` calls starting from the freshly
constructed stepper (`time_scale = 1`, `dt = 1/20`), the total number of fixed
steps executed is `⌊T / dt⌋` where `T` is the sum of the frame durations —
independent of how `T` is split across the calls — and the leftover
accumulator is `T - dt * ⌊T / dt⌋`. -/
theorem c1_step_count (frames : List ℚ)
    (hf : ∀ f ∈ frames, 0 ≤ f ∧ f ≤ 1/10) :
    ((runSim initSim frames).steps_taken : ℤ) = ⌊frames.sum / ((1:ℚ)/20)⌋ ∧
    (runSim initSim frames).time_accumulator =
      frames.sum - (1/20) * (runSim initSim frames).steps_taken := by
  obtain ⟨-, -, hge, hlt, heq⟩ := runSim_invariant frames initSim rfl rfl
    (by norm_num [initSim]) (by norm_num [initSim]) hf
  have h0 : (initSim.steps_taken : ℚ) * (1/20) + initSim.time_accumulator = 0 := by
    norm_num [initSim]
  rw [h0] at heq
  constructor
  · symm
    rw [Int.floor_eq_iff]
    have hdiv : frames.sum / ((1:ℚ)/20) =
        ((runSim initSim frames).steps_taken : ℚ) +
          (runSim initSim frames).time_accumulator * 20 := by
      field_simp
      linarith
    rw [hdiv]
    constructor
    · push_cast
      nlinarith
    · push_cast
      nlinarith
  · linarith

/-- Witness for C1, the claim's concrete instance: frame durations
`[0.03, 0.03, 0.03]` satisfy the per-frame bounds and yield exactly 1 step
with `0.04 = 1/25` seconds left in the accumulator. -/
theorem c1_step_count_witness :
    (∀ f ∈ ([3/100, 3/100, 3/100] : List ℚ), 0 ≤ f ∧ f ≤ 1/10) ∧
    (runSim initSim [3/100, 3/100, 3/100]).steps_taken = 1 ∧
    (runSim initSim [3/100, 3/100, 3/100]).time_accumulator = 1/25 := by
  obtain ⟨h1, h2⟩ := c1_step_count [3/100, 3/100, 3/100]
    (by intro f hfm; fin_cases hfm <;> norm_num)
  have hsum : ([3/100, 3/100, 3/100] : List ℚ).sum = 9/100 := by norm_num
  rw [hsum] at h1 h2
  have hfl : ⌊(9/100 : ℚ) / ((1:ℚ)/20)⌋ = 1 := by
    rw [Int.floor_eq_iff]; norm_num
  rw [hfl] at h1
  have hsteps : (runSim initSim [3/100, 3/100, 3/100]).steps_taken = 1 := by
    exact_mod_cast h1
  refine ⟨by intro f hfm; fin_cases hfm <;> norm_num, hsteps, ?_⟩
  rw [h2, hsteps]
  norm_num

/-! ### Resolver lemmas -/

/-- The collision chain factored through the segment it selects. -/
lemma resolveSide_eq_select {α : Type} [LinearOrderedField α]
    (s : GameState α) (walls : ℕ → Option (Wall α)) :
    resolveSide s walls = hitOutcome s (selectSeg s.count s.y walls) := by
  unfold resolveSide selectSeg
  split_ifs <;> rfl

/-- A true span test on `ow = some w` gives strict containment. -/
lemma inSpan_some_true {α : Type} [LinearOrderedField α] {y : α}
    {ow : Option (Wall α)} {w : Wall α} (hw : ow = some w)
    (h : inSpan y ow = true) : w.low < y ∧ y < w.up := by
  subst hw
  simpa [inSpan] using h

/-- Whatever segment the chain selects, it strictly contains the ball's
vertical position. -/
lemma selectSeg_mem_span {α : Type} [LinearOrderedField α] (count : ℕ)
    (y : α) (walls : ℕ → Option (Wall α)) (w : Wall α)
    (h : selectSeg count y walls = some w) : w.low < y ∧ y < w.up := by
  unfold selectSeg at h
  split_ifs at h with h0 h1 h2 h3 h4 h5 h6
  all_goals first
    | exact Option.noConfusion h
    | exact inSpan_some_true h (by assumption)

/-- C2: (matched side collision) whenever the ball crosses the side boundary
it is moving toward and the chain-selected wall segment's color equals the
ball's color, the resolver reverses the horizontal direction, requests a
layout change, and adds exactly 1 to the score, leaving every other field
unchanged. -/
theorem c2_matched_collision {α : Type} [LinearOrderedField α]
    (s : GameState α) (w : Wall α)
    (hcross : (s.goRight = true ∧ s.x + 1 ≥ rightbound α ∧
        selectSeg s.count s.y s.rightWalls = some w) ∨
      (s.goRight = false ∧ s.x - 1 ≤ leftbound α ∧
        selectSeg s.count s.y s.leftWalls = some w))
    (hmatch : s.ballcolor = w.wallcolor) :
    sideCheck s =
      { s with
        goRight := !s.goRight
        changeDirection := true
        score := s.score + 1 } := by
  unfold sideCheck
  rcases hcross with ⟨hgo, hx, hsel⟩ | ⟨hgo, hx, hsel⟩
  · rw [if_pos ⟨hgo, hx⟩, resolveSide_eq_select, hsel]
    simp [hitOutcome, hmatch]
  · rw [if_neg (by rw [hgo]; rintro ⟨⟨⟩, -⟩),
      if_pos ⟨by rw [hgo]; rfl, hx⟩, resolveSide_eq_select, hsel]
    simp [hitOutcome, hmatch]

/-- Witness for C2 at a concrete state: right-moving ball at `x = 12`,
`y = 3`, white ball against a white wall spanning `(0, 10)`. -/
theorem c2_matched_collision_witness :
    sideCheck c2state =
      { c2state with
        goRight := false
        changeDirection := true
        score := 1 } := by
  have h := c2_matched_collision c2state wMatch
    (Or.inl ⟨rfl, by norm_num [c2state, initState, rightbound],
      by norm_num [c2state, initState, selectSeg, inSpan, wMatch]⟩) rfl
  simpa using h

/-- C3: (mismatched side collision) whenever the ball crosses the side
boundary it is moving toward and the chain-selected wall segment's color
differs from the ball's color, the resolver sets `game_over` and leaves every
other field — score, direction, layout level, change flag — unchanged. -/
theorem c3_mismatched_collision {α : Type} [LinearOrderedField α]
    (s : GameState α) (w : Wall α)
    (hcross : (s.goRight = true ∧ s.x + 1 ≥ rightbound α ∧
        selectSeg s.count s.y s.rightWalls = some w) ∨
      (s.goRight = false ∧ s.x - 1 ≤ leftbound α ∧
        selectSeg s.count s.y s.leftWalls = some w))
    (hmatch : s.ballcolor ≠ w.wallcolor) :
    sideCheck s = { s with game_over := true } := by
  unfold sideCheck
  rcases hcross with ⟨hgo, hx, hsel⟩ | ⟨hgo, hx, hsel⟩
  · rw [if_pos ⟨hgo, hx⟩, resolveSide_eq_select, hsel]
    simp [hitOutcome, hmatch]
  · rw [if_neg (by rw [hgo]; rintro ⟨⟨⟩, -⟩),
      if_pos ⟨by rw [hgo]; rfl, hx⟩, resolveSide_eq_select, hsel]
    simp [hitOutcome, hmatch]

/-- Witness for C3 at a concrete state: the same approach with a black ball
against the white wall ends the game. -/
theorem c3_mismatched_collision_witness :
    sideCheck c3state = { c3state with game_over := true } := by
  have h := c3_mismatched_collision c3state wMatch
    (Or.inl ⟨rfl, by norm_num [c3state, c2state, initState, rightbound],
      by norm_num [c3state, c2state, initState, selectSeg, inSpan, wMatch]⟩)
    (by norm_num [c3state, c2state, initState, wMatch])
  simpa using h

/-- C6: when the ball crosses a side boundary but the chain selects no wall
segment there, the resolver is the identity: every field keeps its prior
value. -/
theorem c6_seam_no_change {α : Type} [LinearOrderedField α]
    (s : GameState α)
    (hcross : (s.goRight = true ∧ s.x + 1 ≥ rightbound α ∧
        selectSeg s.count s.y s.rightWalls = none) ∨
      (s.goRight = false ∧ s.x - 1 ≤ leftbound α ∧
        selectSeg s.count s.y s.leftWalls = none)) :
    sideCheck s = s := by
  unfold sideCheck
  rcases hcross with ⟨hgo, hx, hsel⟩ | ⟨hgo, hx, hsel⟩
  · rw [if_pos ⟨hgo, hx⟩, resolveSide_eq_select, hsel]
    rfl
  · rw [if_neg (by rw [hgo]; rintro ⟨⟨⟩, -⟩),
      if_pos ⟨by rw [hgo]; rfl, hx⟩, resolveSide_eq_select, hsel]
    rfl

/-- Witness for C6 at a concrete state: with the level-0 walls, a ball that
reaches the right boundary exactly at the seam `y = 0.4999999999999996`
matches no segment and nothing changes. -/
theorem c6_seam_no_change_witness : sideCheck c6state = c6state := by
  refine c6_seam_no_change c6state (Or.inl ⟨rfl, ?_, ?_⟩)
  · norm_num [c6state, qLevel, generateWalls, initState, rightbound]
  · norm_num [c6state, qLevel, generateWalls, initState, selectSeg, inSpan,
      seamQ]

/-- C5 counterexample: the claim's half-open `[low, high)` containment fails
at the low endpoint.  The level-0 top right wall has `low =
0.4999999999999996`, yet a ball at exactly that vertical position selects no
segment at all (the chain tests `y > low` strictly), rather than resolving
against that wall. -/
theorem c5_counterexample :
    (qLevel 0).rightWalls 0 = some wallR0 ∧
    selectSeg 0 wallR0.low ((qLevel 0).rightWalls) = none := by
  constructor
  · norm_num [qLevel, generateWalls, initState, wallR0, seamQ]
  · norm_num [qLevel, generateWalls, initState, selectSeg, inSpan, wallR0,
      seamQ]

/-- C5 (amended): the chain selects by the open interval `(low, high)`: any
selected segment strictly contains the ball's vertical position, so a ball
exactly at a segment's `low` or `high` endpoint is never resolved against
that segment. -/
theorem c5_selection_strict {α : Type} [LinearOrderedField α] (count : ℕ)
    (y : α) (walls : ℕ → Option (Wall α)) (w : Wall α)
    (h : selectSeg count y walls = some w) :
    w.low < y ∧ y < w.up := selectSeg_mem_span count y walls w h

/-- Witness for the amended C5: the concrete selection in `c2state` strictly
contains `y = 3`. -/
theorem c5_selection_strict_witness : wMatch.low < (3 : ℚ) ∧ (3 : ℚ) < wMatch.up :=
  c5_selection_strict 0 3 c2state.rightWalls wMatch
    (by norm_num [c2state, initState, selectSeg, inSpan, wMatch])

/-! ### Interval pasting lemmas for the layout partition -/

/-- Two adjacent half-open spans paste to one. -/
lemma cover_two {l m h y : ℚ} (h1 : l ≤ m) (h2 : m ≤ h) :
    ((m ≤ y ∧ y < h) ∨ (l ≤ y ∧ y < m)) ↔ (l ≤ y ∧ y < h) := by
  constructor
  · rintro (⟨ha, hb⟩ | ⟨ha, hb⟩) <;> exact ⟨by linarith, by linarith⟩
  · rintro ⟨ha, hb⟩
    rcases le_or_lt m y with hm | hm
    · exact Or.inl ⟨hm, hb⟩
    · exact Or.inr ⟨ha, hm⟩

/-- Three adjacent half-open spans paste to one. -/
lemma cover_three {l m1 m2 h y : ℚ} (h1 : l ≤ m1) (h2 : m1 ≤ m2)
    (h3 : m2 ≤ h) :
    ((m2 ≤ y ∧ y < h) ∨ (m1 ≤ y ∧ y < m2) ∨ (l ≤ y ∧ y < m1)) ↔
      (l ≤ y ∧ y < h) := by
  constructor
  · rintro (⟨ha, hb⟩ | ⟨ha, hb⟩ | ⟨ha, hb⟩) <;> exact ⟨by linarith, by linarith⟩
  · rintro ⟨ha, hb⟩
    rcases le_or_lt m2 y with hm2 | hm2
    · exact Or.inl ⟨hm2, hb⟩
    rcases le_or_lt m1 y with hm1 | hm1
    · exact Or.inr (Or.inl ⟨hm1, hm2⟩)
    · exact Or.inr (Or.inr ⟨ha, hm1⟩)

/-- Four adjacent half-open spans paste to one. -/
lemma cover_four {l m1 m2 m3 h y : ℚ} (h1 : l ≤ m1) (h2 : m1 ≤ m2)
    (h3 : m2 ≤ m3) (h4 : m3 ≤ h) :
    ((m3 ≤ y ∧ y < h) ∨ (m2 ≤ y ∧ y < m3) ∨ (m1 ≤ y ∧ y < m2) ∨
      (l ≤ y ∧ y < m1)) ↔ (l ≤ y ∧ y < h) := by
  constructor
  · rintro (⟨ha, hb⟩ | ⟨ha, hb⟩ | ⟨ha, hb⟩ | ⟨ha, hb⟩) <;>
      exact ⟨by linarith, by linarith⟩
  · rintro ⟨ha, hb⟩
    rcases le_or_lt m3 y with hm3 | hm3
    · exact Or.inl ⟨hm3, hb⟩
    rcases le_or_lt m2 y with hm2 | hm2
    · exact Or.inr (Or.inl ⟨hm2, hm3⟩)
    rcases le_or_lt m1 y with hm1 | hm1
    · exact Or.inr (Or.inr (Or.inl ⟨hm1, hm2⟩))
    · exact Or.inr (Or.inr (Or.inr ⟨ha, hm1⟩))

/-- Membership of a half-open span in a listed layout, unfolded. -/
lemma covered_cons (w : Wall ℚ) (ws : List (Wall ℚ)) (y : ℚ) :
    covered (w :: ws) y ↔ (w.low ≤ y ∧ y < w.up) ∨ covered ws y := by
  simp [covered]

/-- The empty layout covers nothing. -/
lemma covered_nil (y : ℚ) : covered [] y ↔ False := by simp [covered]

/-- C4 counterexample: the layouts do not cover the vertical play range
bounded by `bottom = -14` and `upperbound = 14.7`.  The vertical position
`y = 14` lies between the two boundaries, yet no level-0 right segment's
`[low, high)` span contains it (the walls stop at `13.5`). -/
theorem c4_counterexample :
    (bottom ℚ ≤ 14 ∧ (14 : ℚ) ≤ upperbound ℚ) ∧
    ¬ covered (segsOf ((qLevel 0).rightWalls)) 14 := by
  have hseg : segsOf ((qLevel 0).rightWalls) =
      [⟨133/10, 15/2, 7, 7, 0, 27/2, 4999999999999996/10000000000000000⟩,
       ⟨133/10, -7, 7, 15/2, 1, 4999999999999996/10000000000000000,
        -137/10⟩] := rfl
  refine ⟨⟨by norm_num [bottom], by norm_num [upperbound]⟩, ?_⟩
  intro hcov
  rw [hseg] at hcov
  rcases (covered_cons _ _ _).mp hcov with ⟨-, h2⟩ | hcov2
  · norm_num at h2
  rcases (covered_cons _ _ _).mp hcov2 with ⟨-, h2⟩ | hcov3
  · norm_num at h2
  exact (covered_nil _).mp hcov3

/-- C4 (amended): at every level 0, 1, 2 and on both sides, the generated
segments are adjacent with exactly matching endpoints (`segment i+1`'s `up`
equals `segment i`'s `low` in array order, i.e. no gaps and no overlaps), and
the union of their `[low, high)` spans is exactly `[-13.7, 13.5)` — the wall
column itself, which is a proper sub-range of the `bottom = -14` /
`upperbound = 14.7` play bounds. -/
theorem c4_partition :
    (chainOK (segsOf ((qLevel 0).rightWalls)) ∧
     chainOK (segsOf ((qLevel 0).leftWalls)) ∧
     chainOK (segsOf ((qLevel 1).rightWalls)) ∧
     chainOK (segsOf ((qLevel 1).leftWalls)) ∧
     chainOK (segsOf ((qLevel 2).rightWalls)) ∧
     chainOK (segsOf ((qLevel 2).leftWalls))) ∧
    (∀ y : ℚ,
      (covered (segsOf ((qLevel 0).rightWalls)) y ↔ -137/10 ≤ y ∧ y < 27/2) ∧
      (covered (segsOf ((qLevel 0).leftWalls)) y ↔ -137/10 ≤ y ∧ y < 27/2) ∧
      (covered (segsOf ((qLevel 1).rightWalls)) y ↔ -137/10 ≤ y ∧ y < 27/2) ∧
      (covered (segsOf ((qLevel 1).leftWalls)) y ↔ -137/10 ≤ y ∧ y < 27/2) ∧
      (covered (segsOf ((qLevel 2).rightWalls)) y ↔ -137/10 ≤ y ∧ y < 27/2) ∧
      (covered (segsOf ((qLevel 2).leftWalls)) y ↔ -137/10 ≤ y ∧ y < 27/2)) ∧
    (bottom ℚ < -137/10 ∧ (27/2 : ℚ) < upperbound ℚ) := by
  refine ⟨⟨?_, ?_, ?_, ?_, ?_, ?_⟩, ?_, by norm_num [bottom], by
    norm_num [upperbound]⟩
  · norm_num [chainOK, segsOf, qLevel, generateWalls, initState]
  · norm_num [chainOK, segsOf, qLevel, generateWalls, initState]
  · norm_num [chainOK, segsOf, qLevel, generateWalls, initState]
  · norm_num [chainOK, segsOf, qLevel, generateWalls, initState]
  · norm_num [chainOK, segsOf, qLevel, generateWalls, initState]
  · norm_num [chainOK, segsOf, qLevel, generateWalls, initState]
  intro y
  refine ⟨?_, ?_, ?_, ?_, ?_, ?_⟩
  · show covered [⟨133/10, 15/2, 7, 7, 0, 27/2,
        4999999999999996/10000000000000000⟩,
      ⟨133/10, -7, 7, 15/2, 1, 4999999999999996/10000000000000000,
        -137/10⟩] y ↔ _
    rw [covered_cons, covered_cons, covered_nil, or_false]
    exact cover_two (by norm_num) (by norm_num)
  · show covered [⟨-133/10, 49/5, 7, 24/5, 1, 27/2, 51/10⟩,
      ⟨-133/10, -24/5, 7, 49/5, 0, 51/10, -137/10⟩] y ↔ _
    rw [covered_cons, covered_cons, covered_nil, or_false]
    exact cover_two (by norm_num) (by norm_num)
  · show covered [⟨133/10, 21/2, 7, 4, 0, 27/2, 67/10⟩,
      ⟨133/10, 7/2, 7, 3, 1, 67/10, 1/2⟩,
      ⟨133/10, -7, 7, 15/2, 2, 1/2, -137/10⟩] y ↔ _
    rw [covered_cons, covered_cons, covered_cons, covered_nil, or_false]
    exact cover_three (by norm_num) (by norm_num) (by norm_num)
  · show covered [⟨-133/10, 19/2, 7, 5, 2, 27/2, 9/2⟩,
      ⟨-133/10, -3/2, 7, 6, 0, 9/2, -77/10⟩,
      ⟨-133/10, -11, 7, 7/2, 1, -77/10, -137/10⟩] y ↔ _
    rw [covered_cons, covered_cons, covered_cons, covered_nil, or_false]
    exact cover_three (by norm_num) (by norm_num) (by norm_num)
  · show covered [⟨133/10, 23/2, 7, 3, 2, 27/2, 87/10⟩,
      ⟨133/10, 9/2, 7, 4, 1, 87/10, 1/2⟩,
      ⟨133/10, -9/2, 7, 5, 0, 1/2, -99/10⟩,
      ⟨133/10, -12, 7, 5/2, 3, -99/10, -137/10⟩] y ↔ _
    rw [covered_cons, covered_cons, covered_cons, covered_cons, covered_nil,
      or_false]
    exact cover_four (by norm_num) (by norm_num) (by norm_num) (by norm_num)
  · show covered [⟨-133/10, 25/2, 7, 2, 1, 27/2, 107/10⟩,
      ⟨-133/10, 9/2, 7, 6, 2, 107/10, -17/10⟩,
      ⟨-133/10, -4, 7, 5/2, 3, -17/10, -67/10⟩,
      ⟨-133/10, -52/5, 7, 39/10, 0, -67/10, -137/10⟩] y ↔ _
    rw [covered_cons, covered_cons, covered_cons, covered_cons, covered_nil,
      or_false]
    exact cover_four (by norm_num) (by norm_num) (by norm_num) (by norm_num)

/-! ### Shape and preservation lemmas for the frame step -/

/-- The collision chain produces one of exactly three outcomes: no change, a
game-over, or a score-and-direction update. -/
lemma resolveSide_cases {α : Type} [LinearOrderedField α] (s : GameState α)
    (walls : ℕ → Option (Wall α)) :
    resolveSide s walls = s ∨
    resolveSide s walls = { s with game_over := true } ∨
    resolveSide s walls =
      { s with
        goRight := !s.goRight
        changeDirection := true
        score := s.score + 1 } := by
  rw [resolveSide_eq_select]
  cases hsel : selectSeg s.count s.y walls with
  | none => exact Or.inl rfl
  | some w =>
    simp only [hitOutcome]
    split_ifs
    · exact Or.inr (Or.inr rfl)
    · exact Or.inr (Or.inl rfl)

/-- The same trichotomy for the full side check. -/
lemma sideCheck_cases {α : Type} [LinearOrderedField α] (s : GameState α) :
    sideCheck s = s ∨
    sideCheck s = { s with game_over := true } ∨
    sideCheck s =
      { s with
        goRight := !s.goRight
        changeDirection := true
        score := s.score + 1 } := by
  unfold sideCheck
  split_ifs
  · exact resolveSide_cases s s.rightWalls
  · exact resolveSide_cases s s.leftWalls
  · exact Or.inl rfl

/-- The side check never changes the level, and either leaves score and the
layout-change flag alone or adds 1 and raises the flag together. -/
lemma sideCheck_shape {α : Type} [LinearOrderedField α] (s : GameState α) :
    (sideCheck s).count = s.count ∧
    (((sideCheck s).score = s.score ∧
        (sideCheck s).changeDirection = s.changeDirection) ∨
      ((sideCheck s).score = s.score + 1 ∧
        (sideCheck s).changeDirection = true)) := by
  rcases sideCheck_cases s with h | h | h <;> rw [h]
  · exact ⟨rfl, Or.inl ⟨rfl, rfl⟩⟩
  · exact ⟨rfl, Or.inl ⟨rfl, rfl⟩⟩
  · exact ⟨rfl, Or.inr ⟨rfl, rfl⟩⟩

/-- The side check never changes the ball's vertical position or the bounce
angle. -/
lemma sideCheck_frozen {α : Type} [LinearOrderedField α] (s : GameState α) :
    (sideCheck s).y = s.y ∧ (sideCheck s).bounce_angle = s.bounce_angle := by
  rcases sideCheck_cases s with h | h | h <;> rw [h] <;> exact ⟨rfl, rfl⟩

/-- The motion-and-top-check half of the bounce step touches only position,
angle and `game_over`. -/
lemma bounceMid_frozen {α : Type} [LinearOrderedField α] (pi : α)
    (sinf cosf : α → α) (dt : α) (s : GameState α) :
    (bounceMid pi sinf cosf dt s).count = s.count ∧
    (bounceMid pi sinf cosf dt s).score = s.score ∧
    (bounceMid pi sinf cosf dt s).changeDirection = s.changeDirection ∧
    (bounceMid pi sinf cosf dt s).goRight = s.goRight ∧
    (bounceMid pi sinf cosf dt s).bounced = s.bounced := by
  simp only [bounceMid]
  split_ifs <;> exact ⟨rfl, rfl, rfl, rfl, rfl⟩

/-- A bounce step keeps the level and either keeps score and the change flag
or bumps the score by 1 while raising the flag. -/
lemma bounceStep_shape {α : Type} [LinearOrderedField α] (pi : α)
    (sinf cosf : α → α) (dt : α) (s : GameState α) :
    (bounceStep pi sinf cosf dt s).count = s.count ∧
    (((bounceStep pi sinf cosf dt s).score = s.score ∧
        (bounceStep pi sinf cosf dt s).changeDirection = s.changeDirection) ∨
      ((bounceStep pi sinf cosf dt s).score = s.score + 1 ∧
        (bounceStep pi sinf cosf dt s).changeDirection = true)) := by
  obtain ⟨mc, ms, mcd, -, -⟩ := bounceMid_frozen pi sinf cosf dt s
  obtain ⟨sc, ssh⟩ := sideCheck_shape (bounceMid pi sinf cosf dt s)
  simp only [bounceStep]
  split_ifs
  all_goals
    refine ⟨sc.trans mc, ?_⟩
    rcases ssh with ⟨h1, h2⟩ | ⟨h1, h2⟩
    · exact Or.inl ⟨h1.trans ms, h2.trans mcd⟩
    · exact Or.inr ⟨h1.trans (by rw [ms]), h2⟩

/-- A fall step keeps the level and either keeps score and the change flag or
bumps the score by 1 while raising the flag. -/
lemma fallStep_shape {α : Type} [LinearOrderedField α] (s : GameState α) :
    (fallStep s).count = s.count ∧
    (((fallStep s).score = s.score ∧
        (fallStep s).changeDirection = s.changeDirection) ∨
      ((fallStep s).score = s.score + 1 ∧
        (fallStep s).changeDirection = true)) := by
  simp only [fallStep]
  exact ⟨(sideCheck_shape _).1, (sideCheck_shape _).2⟩

/-- The regeneration block never touches flags, score, position or angle. -/
lemma regen_frozen {α : Type} [LinearOrderedField α] (s : GameState α)
    (rng : Rng) :
    (regen s rng).score = s.score ∧ (regen s rng).x = s.x ∧
    (regen s rng).y = s.y ∧ (regen s rng).game_over = s.game_over ∧
    (regen s rng).goRight = s.goRight ∧
    (regen s rng).bounce_angle = s.bounce_angle ∧
    (regen s rng).bounced = s.bounced := by
  unfold regen
  split_ifs <;> exact ⟨rfl, rfl, rfl, rfl, rfl, rfl, rfl⟩

/-- `generateWalls` only touches the wall arrays and the change flag. -/
lemma generateWalls_frozen {α : Type} [LinearOrderedField α]
    (s : GameState α) :
    (generateWalls s).score = s.score ∧ (generateWalls s).x = s.x ∧
    (generateWalls s).y = s.y ∧ (generateWalls s).game_over = s.game_over ∧
    (generateWalls s).goRight = s.goRight ∧
    (generateWalls s).bounce_angle = s.bounce_angle ∧
    (generateWalls s).count = s.count ∧
    (generateWalls s).ballcolor = s.ballcolor ∧
    (generateWalls s).bounced = s.bounced := by
  unfold generateWalls
  split_ifs <;> exact ⟨rfl, rfl, rfl, rfl, rfl, rfl, rfl, rfl, rfl⟩

/-- When the change flag is down the regeneration block does nothing. -/
lemma regen_of_not_changeDirection {α : Type} [LinearOrderedField α]
    (s : GameState α) (rng : Rng) (h : s.changeDirection = false) :
    regen s rng = s := by
  unfold regen
  rw [h]
  rfl

/-- The level loop never leaves `{0, 1, 2}` when the raw draws are genuine
`Math.random()` results. -/
lemma pickCount_le (prev : ℕ) (draws : List ℚ) (hprev : prev ≤ 2)
    (hdraws : ∀ r ∈ draws, 0 ≤ r ∧ r < 1) : pickCount prev draws ≤ 2 := by
  induction draws with
  | nil => simpa [pickCount] using hprev
  | cons r rs ih =>
    obtain ⟨h0, h1⟩ := hdraws r (List.mem_cons_self r rs)
    have hlt : ⌊3 * r⌋ < 3 := Int.floor_lt.mpr (by push_cast; linarith)
    unfold pickCount
    split_ifs
    · exact ih fun g hg => hdraws g (List.mem_cons_of_mem _ hg)
    · omega

/-- If some draw decodes to a level other than the current one, the level
loop returns a level different from the current one. -/
lemma pickCount_ne (prev : ℕ) (draws : List ℚ)
    (hgood : ∃ r ∈ draws, (⌊3 * r⌋).toNat ≠ prev) :
    pickCount prev draws ≠ prev := by
  induction draws with
  | nil => simp at hgood
  | cons r rs ih =>
    unfold pickCount
    split_ifs with h
    · apply ih
      obtain ⟨g, hgmem, hgne⟩ := hgood
      rcases List.mem_cons.mp hgmem with rfl | hm
      · exact absurd h hgne
      · exact ⟨g, hm, hgne⟩
    · exact h

/-- C7: once `game_over` holds, any number of further frames — whatever their
durations and randomness — leaves the score and the ball position `(x, y)`
unchanged, and `game_over` stays set. -/
theorem c7_terminal_frozen (s : GameState ℝ) (frames : List (ℝ × Rng))
    (h : s.game_over = true) :
    (runFramesR s frames).score = s.score ∧
    (runFramesR s frames).x = s.x ∧ (runFramesR s frames).y = s.y ∧
    (runFramesR s frames).game_over = true := by
  induction frames generalizing s with
  | nil => exact ⟨rfl, rfl, rfl, h⟩
  | cons fr frs ih =>
    have hone : ∀ (dt : ℝ) (rng : Rng),
        (displayStepR s dt rng).score = s.score ∧
        (displayStepR s dt rng).x = s.x ∧ (displayStepR s dt rng).y = s.y ∧
        (displayStepR s dt rng).game_over = true := by
      intro dt rng
      unfold displayStepR displayStep
      rw [if_neg (by rw [h]; rintro ⟨-, ⟨⟩⟩)]
      obtain ⟨g1, g2, g3, g4, -, -, -, -, -⟩ := generateWalls_frozen
        (regen (if s.y + 1 ≥ upperbound ℝ ∨ s.y ≤ bottom ℝ then
          { s with game_over := true }
          else if s.game_started ∧ (!s.game_over) then fallStep s else s)
          rng)
      obtain ⟨r1, r2, r3, r4, -, -, -⟩ := regen_frozen
        (if s.y + 1 ≥ upperbound ℝ ∨ s.y ≤ bottom ℝ then
          { s with game_over := true }
          else if s.game_started ∧ (!s.game_over) then fallStep s else s) rng
      rw [g1, g2, g3, g4, r1, r2, r3, r4]
      split_ifs with h1 h2
      · exact ⟨rfl, rfl, rfl, rfl⟩
      · exact absurd h2 (by rw [h]; rintro ⟨-, ⟨⟩⟩)
      · exact ⟨rfl, rfl, rfl, h⟩
    obtain ⟨h1, h2, h3, h4⟩ := hone fr.1 fr.2
    have hrest := ih (displayStepR s fr.1 fr.2) h4
    have hfold : runFramesR s (fr :: frs) =
        runFramesR (displayStepR s fr.1 fr.2) frs := rfl
    rw [hfold, hrest.1, hrest.2.1, hrest.2.2.1, h1, h2, h3]
    exact ⟨rfl, rfl, rfl, hrest.2.2.2⟩

/-- Witness for C7: after forcing game over on the fresh scene, one frame of
one second changes neither score nor position, and the game stays over. -/
theorem c7_terminal_frozen_witness :
    (runFramesR (keyForceOver initStateR) [(1, rng0)]).score =
      (keyForceOver initStateR).score ∧
    (runFramesR (keyForceOver initStateR) [(1, rng0)]).x =
      (keyForceOver initStateR).x ∧
    (runFramesR (keyForceOver initStateR) [(1, rng0)]).y =
      (keyForceOver initStateR).y ∧
    (runFramesR (keyForceOver initStateR) [(1, rng0)]).game_over = true :=
  c7_terminal_frozen (keyForceOver initStateR) [(1, rng0)] rfl

/-- C9: from any frame whose state has a legal level and a lowered change
flag, with genuine `Math.random()` draws of which at least one decodes to a
different level: the next level is again in `{0, 1, 2}`; the level changes
only if this frame's collision was a color match (score went up by exactly
1); and whenever the score changed (a regeneration), the new level differs
from the old one. -/
theorem c9_level_invariant (s : GameState ℝ) (dt : ℝ) (rng : Rng)
    (hcount : s.count ≤ 2) (hcd : s.changeDirection = false)
    (hdraws : ∀ r ∈ rng.countDraws, 0 ≤ r ∧ r < 1)
    (hgood : ∃ r ∈ rng.countDraws, (⌊3 * r⌋).toNat ≠ s.count) :
    (displayStepR s dt rng).count ≤ 2 ∧
    ((displayStepR s dt rng).count ≠ s.count →
      (displayStepR s dt rng).score = s.score + 1) ∧
    ((displayStepR s dt rng).score ≠ s.score →
      (displayStepR s dt rng).count ≠ s.count) := by
  have key : ∀ s1 : GameState ℝ, s1.count = s.count →
      ((s1.score = s.score ∧ s1.changeDirection = s.changeDirection) ∨
        (s1.score = s.score + 1 ∧ s1.changeDirection = true)) →
      (generateWalls (regen s1 rng)).count ≤ 2 ∧
      ((generateWalls (regen s1 rng)).count ≠ s.count →
        (generateWalls (regen s1 rng)).score = s.score + 1) ∧
      ((generateWalls (regen s1 rng)).score ≠ s.score →
        (generateWalls (regen s1 rng)).count ≠ s.count) := by
    intro s1 hc hsh
    obtain ⟨gsc, -, -, -, -, -, gcount, -, -⟩ :=
      generateWalls_frozen (regen s1 rng)
    rcases hsh with ⟨hsc, hcd1⟩ | ⟨hsc, hcd1⟩
    · have hskip : regen s1 rng = s1 :=
        regen_of_not_changeDirection s1 rng (hcd1.trans hcd)
      rw [gsc, gcount, hskip, hc, hsc]
      exact ⟨hcount, fun hne => absurd rfl hne, fun hne => absurd rfl hne⟩
    · have hrun : (regen s1 rng).count = pickCount s1.count rng.countDraws ∧
          (regen s1 rng).score = s1.score := by
        unfold regen
        rw [hcd1]
        exact ⟨rfl, rfl⟩
      rw [gsc, gcount, hrun.1, hrun.2, hsc, hc]
      refine ⟨pickCount_le s.count rng.countDraws hcount hdraws,
        fun _ => rfl, fun _ => pickCount_ne s.count rng.countDraws hgood⟩
  have hbs := bounceStep_shape Real.pi Real.sin Real.cos dt s
  have hfs := fallStep_shape s
  unfold displayStepR displayStep
  split_ifs with h1 h2 h3
  · exact key _ hbs.1 hbs.2
  · exact key _ rfl (Or.inl ⟨rfl, rfl⟩)
  · exact key _ hfs.1 hfs.2
  · exact key _ rfl (Or.inl ⟨rfl, rfl⟩)

/-- Witness for C9 on the fresh scene with the single level draw `1/2`
(decoding to level 1). -/
theorem c9_level_invariant_witness :
    (displayStepR initStateR 1 rng1).count ≤ 2 ∧
    ((displayStepR initStateR 1 rng1).count ≠ initStateR.count →
      (displayStepR initStateR 1 rng1).score = initStateR.score + 1) ∧
    ((displayStepR initStateR 1 rng1).score ≠ initStateR.score →
      (displayStepR initStateR 1 rng1).count ≠ initStateR.count) := by
  refine c9_level_invariant initStateR 1 rng1 ?_ rfl ?_ ?_
  · show (0 : ℕ) ≤ 2
    omega
  · intro r hm
    rcases List.mem_cons.mp hm with rfl | hm2
    · norm_num
    · simp [rng1] at hm2
  · refine ⟨1/2, by simp [rng1], ?_⟩
    show (⌊3 * (1/2 : ℚ)⌋).toNat ≠ 0
    norm_num

/-! ### Restart and the bounce angle -/

/-- The bounce angle after a bounce step: reset to `π/2` when the advanced
angle reached `1.1 π`, and the advanced angle otherwise. -/
lemma bounceStep_angle {α : Type} [LinearOrderedField α] (pi : α)
    (sinf cosf : α → α) (dt : α) (s : GameState α) :
    (bounceStep pi sinf cosf dt s).bounce_angle =
      if s.bounce_angle + 1/2 * dt * (6/5) * pi ≥ 11/10 * pi then 1/2 * pi
      else s.bounce_angle + 1/2 * dt * (6/5) * pi := by
  have hmid : (bounceMid pi sinf cosf dt s).bounce_angle =
      s.bounce_angle + 1/2 * dt * (6/5) * pi := by
    simp only [bounceMid]
    split_ifs <;> rfl
  obtain ⟨-, hangle⟩ := sideCheck_frozen (bounceMid pi sinf cosf dt s)
  simp only [bounceStep]
  split_ifs with h
  · rfl
  · exact hangle.trans hmid

/-- In a frame that runs the bounce branch, the whole frame's effect on the
bounce angle is the bounce step's. -/
lemma displayStep_angle_of_bounce {α : Type} [LinearOrderedField α] (pi : α)
    (sinf cosf : α → α) (s : GameState α) (dt : α) (rng : Rng)
    (hb : s.bounced = false) (hg : s.game_over = false) :
    (displayStep pi sinf cosf s dt rng).bounce_angle =
      (bounceStep pi sinf cosf dt s).bounce_angle := by
  simp only [displayStep]
  rw [if_pos ⟨by rw [hb]; rfl, by rw [hg]; rfl⟩]
  obtain ⟨-, -, -, -, -, g6, -, -, -⟩ :=
    generateWalls_frozen (regen (bounceStep pi sinf cosf dt s) rng)
  obtain ⟨-, -, -, -, -, r6, -⟩ :=
    regen_frozen (bounceStep pi sinf cosf dt s) rng
  exact g6.trans r6

/-- C8 counterexample: restart does not reset the bounce-phase angle
accumulator.  Press `bounce the ball` on the fresh scene and run one frame of
half a second: the angle advances to `0.8 π`; pressing `restart` leaves it
there, different from the constructor's `0.5 π`. -/
theorem c8_counterexample :
    (restart c8state).bounce_angle = 4/5 * Real.pi ∧
    initStateR.bounce_angle = 1/2 * Real.pi ∧
    (restart c8state).bounce_angle ≠ initStateR.bounce_angle := by
  have ha : (keyBounce initStateR).bounce_angle +
      1/2 * (1/2 : ℝ) * (6/5) * Real.pi = 4/5 * Real.pi := by
    show 1/2 * Real.pi + 1/2 * (1/2 : ℝ) * (6/5) * Real.pi = 4/5 * Real.pi
    ring
  have hlt : ¬ ((keyBounce initStateR).bounce_angle +
      1/2 * (1/2 : ℝ) * (6/5) * Real.pi ≥ 11/10 * Real.pi) := by
    rw [ha]
    intro hcon
    nlinarith [Real.pi_pos]
  have h1 : c8state.bounce_angle = 4/5 * Real.pi := by
    have h2 := displayStep_angle_of_bounce Real.pi Real.sin Real.cos
      (keyBounce initStateR) (1/2) rng0 rfl rfl
    have h3 := bounceStep_angle Real.pi Real.sin Real.cos (1/2)
      (keyBounce initStateR)
    rw [if_neg hlt, ha] at h3
    exact (h2.trans h3 : c8state.bounce_angle = _)
  have hr : (restart c8state).bounce_angle = c8state.bounce_angle := rfl
  refine ⟨hr.trans h1, rfl, ?_⟩
  rw [hr.trans h1, show initStateR.bounce_angle = 1/2 * Real.pi from rfl]
  intro hcon
  have hpos := Real.pi_pos
  linarith

/-- C8 (amended): the restart handler resets the game flags, score, position,
direction, layout level, change flag, wall arrays, and points the ball color
at palette slot 0 — i.e. it rebuilds the constructor state except that the
bounce-phase angle accumulator and the current palette contents survive (so
the ball color is slot 0's current occupant, not necessarily the
creation-time white). -/
theorem c8_restart_resets {α : Type} [LinearOrderedField α] (pi : α)
    (s : GameState α) :
    restart s =
      { initState pi with
        bounce_angle := s.bounce_angle
        colors := s.colors
        ballcolor := s.colors 0 } := rfl

/-! ### Order of the boundary checks inside one bounce step -/

/-- C10: the top/bottom check inside a bounce step does not end the step —
there is a state (mid-arc at angle `π/2`, high up and at the right boundary
against a matching segment) whose single bounce-branch frame both sets
`game_over` from the top boundary and, in the same step, adds 1 to the score
and reverses the horizontal direction from the side match. -/
theorem c10_order_of_checks :
    ∃ (s : GameState ℝ) (dt : ℝ) (rng : Rng),
      s.bounced = false ∧ s.game_over = false ∧
      (displayStepR s dt rng).game_over = true ∧
      (displayStepR s dt rng).score = s.score + 1 ∧
      (displayStepR s dt rng).goRight = !s.goRight := by
  have hA : c10state.bounce_angle + 1/2 * (0 : ℝ) * (6/5) * Real.pi =
      Real.pi / 2 := by
    show Real.pi / 2 + 1/2 * (0 : ℝ) * (6/5) * Real.pi = Real.pi / 2
    ring
  have hsin : Real.sin (c10state.bounce_angle +
      1/2 * (0 : ℝ) * (6/5) * Real.pi) = 1 := by
    rw [hA, Real.sin_pi_div_two]
  have hcos : Real.cos (c10state.bounce_angle +
      1/2 * (0 : ℝ) * (6/5) * Real.pi) = 0 := by
    rw [hA, Real.cos_pi_div_two]
  have hmid : bounceMid Real.pi Real.sin Real.cos 0 c10state =
      { c10state with
        bounce_angle := Real.pi / 2
        x := 59/5
        y := 55/4
        game_over := true } := by
    simp only [bounceMid, hsin, hcos]
    split_ifs with htop hgo hgo'
    · rw [show c10state.bounce_angle + 1/2 * (0 : ℝ) * (6/5) * Real.pi =
          Real.pi / 2 from hA,
        show c10state.x - 1/20 * (0 : ℝ) = 59/5 by
          rw [show c10state.x = (59/5 : ℝ) from rfl]; norm_num,
        show c10state.y + 3/20 * (1 : ℝ) = 55/4 by
          rw [show c10state.y = (68/5 : ℝ) from rfl]; norm_num]
    · exact absurd rfl hgo
    · exact absurd (Or.inl (by
        rw [show c10state.y = (68/5 : ℝ) from rfl]
        norm_num [upperbound])) htop
    · exact absurd (Or.inl (by
        rw [show c10state.y = (68/5 : ℝ) from rfl]
        norm_num [upperbound])) htop
  have hsel : selectSeg
      ({ c10state with
        bounce_angle := Real.pi / 2
        x := (59/5 : ℝ)
        y := 55/4
        game_over := true } : GameState ℝ).count
      ({ c10state with
        bounce_angle := Real.pi / 2
        x := (59/5 : ℝ)
        y := 55/4
        game_over := true } : GameState ℝ).y
      ({ c10state with
        bounce_angle := Real.pi / 2
        x := (59/5 : ℝ)
        y := 55/4
        game_over := true } : GameState ℝ).rightWalls =
      some ⟨133/10, 0, 7, 0, 5, 20, 0⟩ := by
    norm_num [selectSeg, inSpan, c10state, initStateR, initState]
  have hside : sideCheck
      ({ c10state with
        bounce_angle := Real.pi / 2
        x := (59/5 : ℝ)
        y := 55/4
        game_over := true } : GameState ℝ) =
      { c10state with
        bounce_angle := Real.pi / 2
        x := (59/5 : ℝ)
        y := 55/4
        game_over := true
        goRight := false
        changeDirection := true
        score := c10state.score + 1 } := by
    unfold sideCheck
    rw [if_pos ⟨rfl, by norm_num [rightbound]⟩, resolveSide_eq_select, hsel]
    simp only [hitOutcome]
    rw [if_pos (show c10state.ballcolor = 5 from rfl)]
    rfl
  have hbproj :
      (bounceStep Real.pi Real.sin Real.cos 0 c10state).game_over =
        (sideCheck (bounceMid Real.pi Real.sin Real.cos 0
          c10state)).game_over ∧
      (bounceStep Real.pi Real.sin Real.cos 0 c10state).score =
        (sideCheck (bounceMid Real.pi Real.sin Real.cos 0 c10state)).score ∧
      (bounceStep Real.pi Real.sin Real.cos 0 c10state).goRight =
        (sideCheck (bounceMid Real.pi Real.sin Real.cos 0
          c10state)).goRight := by
    simp only [bounceStep]
    split_ifs <;> exact ⟨rfl, rfl, rfl⟩
  rw [hmid, hside] at hbproj
  obtain ⟨g1, -, -, g4, g5, -, -, -, -⟩ := generateWalls_frozen
    (regen (bounceStep Real.pi Real.sin Real.cos 0 c10state) rng0)
  obtain ⟨r1, -, -, r4, r5, -, -⟩ :=
    regen_frozen (bounceStep Real.pi Real.sin Real.cos 0 c10state) rng0
  have hstep : displayStepR c10state 0 rng0 =
      generateWalls (regen (bounceStep Real.pi Real.sin Real.cos 0 c10state)
        rng0) := by
    simp only [displayStepR, displayStep]
    rw [if_pos ⟨rfl, rfl⟩]
  refine ⟨c10state, 0, rng0, rfl, rfl, ?_, ?_, ?_⟩
  · rw [hstep, g4, r4, hbproj.1]
    try rfl
  · rw [hstep, g1, r1, hbproj.2.1]
    try rfl
  · rw [hstep, g5, r5, hbproj.2.2]
    try rfl

end CS174
